import Mathlib

/-!
Verification development for the League-of-Legends match-analytics pipeline:
a shallow embedding of the match fetcher (`api_utils.getMatchDetails`), the
feature extractor (`data_processing.processMatches`), and the model layer
(`model.trainModel`, `model.predictByMostPlayed`), together with theorems
settling the specified properties.

Modelling conventions:
* Python dicts holding raw API data become structures whose fields are
  `Option`-valued; direct indexing `d[k]` is a fallible lookup (a `KeyError`
  is `Except.error ()`), while `d.get(k, default)` is `Option.getD`.
* Python floats are modelled as exact rationals `ℚ`.
* The single HTTP attempt inside `getMatchDetails` is abstracted by a
  `RequestOutcome` argument: either the transport layer raised before a
  response existed, or a response with a status code and parsed body came
  back.  The `time.sleep(1)` call is recorded as the number of seconds slept.
-/

/-- One entry of `match['info']['participants']`.  Every field that the
source reads is `Option`-valued because the underlying JSON dict may lack
the key; `data_processing.py` reads `puuid`, `championName`, `win`, `kills`,
`deaths`, `assists`, `teamPosition` by direct indexing and the remaining
fields via `.get(key, default)`. -/
structure Participant where
  puuid : Option String
  championName : Option String
  win : Option Bool
  kills : Option Nat
  deaths : Option Nat
  assists : Option Nat
  teamPosition : Option String
  goldEarned : Option Nat
  totalDamageDealtToChampions : Option Nat
  totalMinionsKilled : Option Nat
  visionScore : Option Nat
  firstBloodKill : Option Bool
  deriving DecidableEq

/-- The `info` object of a match record: a participant list (read with
`.get('participants', [])`, so absence is the empty list) and the
`gameDuration` key, read by direct indexing. -/
structure MatchInfo where
  participants : List Participant
  gameDuration : Option Nat
  deriving DecidableEq

/-- A raw match record as returned by `getMatchDetails`: the `info` key is
read with `.get('info', {})`, so the empty dict returned on a failed fetch
is modelled by `info := none`. -/
structure MatchRecord where
  info : Option MatchInfo
  deriving DecidableEq

/-- The empty dict `{}` that `getMatchDetails` returns on any error. -/
def emptyRecord : MatchRecord := ⟨none⟩

/-- Model of `match.get('info', {}).get('participants', [])`. -/
def MatchRecord.participantList (m : MatchRecord) : List Participant :=
  match m.info with
  | none => []
  | some i => i.participants

/-- One row of the feature DataFrame built by `processMatches`. -/
structure MatchFeatureRow where
  champion : String
  win : Bool
  kills : Nat
  deaths : Nat
  assists : Nat
  kda : ℚ
  role : String
  duration : ℚ
  gold : Nat
  damage : Nat
  farm : Nat
  vision : Nat
  first_blood : Nat
  deriving DecidableEq

/-- Python's `d or 1` on a non-negative integer `d`: `0` is falsy, any other
value is returned unchanged. -/
def pyOrOne (d : Nat) : Nat := if d = 0 then 1 else d

/-- The dict literal built for a matching participant in
`data_processing.processMatches` (lines 54–68): direct indexing for
`championName`, `win`, `kills`, `deaths`, `assists`, `teamPosition` and
`match['info']['gameDuration']` (any of these keys being absent raises a
`KeyError`, all of which collapse to the same `Except.error ()` here);
default-valued `.get` for the remaining stats. -/
def extractRow (m : MatchRecord) (player : Participant) :
    Except Unit MatchFeatureRow :=
  match player.championName, player.win, player.kills, player.deaths,
      player.assists, player.teamPosition, m.info with
  | some champion, some win, some kills, some deaths, some assists,
      some role, some info =>
    match info.gameDuration with
    | none => Except.error ()
    | some dur => Except.ok
      { champion := champion
        win := win
        kills := kills
        deaths := deaths
        assists := assists
        kda := ((kills : ℚ) + (assists : ℚ)) / (pyOrOne deaths : ℚ)
        role := role
        duration := (dur : ℚ) / 60
        gold := player.goldEarned.getD 0
        damage := player.totalDamageDealtToChampions.getD 0
        farm := player.totalMinionsKilled.getD 0
        vision := player.visionScore.getD 0
        first_blood := if player.firstBloodKill.getD false then 1 else 0 }
  | _, _, _, _, _, _, _ => Except.error ()

/-- The participant scan of `processMatches`: walk the participant list in
order, compare `player['puuid']` (direct indexing, so a participant without
the key raises) against the target, and stop at the first hit. -/
def findPlayer (puuid : String) : List Participant → Except Unit (Option Participant)
  | [] => Except.ok none
  | p :: rest =>
    match p.puuid with
    | none => Except.error ()
    | some pid =>
      if pid = puuid then Except.ok (some p) else findPlayer puuid rest

/-- Processing of a single fetched match record inside the loop of
`processMatches`: scan for the target player; on a hit append exactly one
row (built by `extractRow`) and break; otherwise contribute nothing. -/
def processRecord (puuid : String) (m : MatchRecord) :
    Except Unit (List MatchFeatureRow) :=
  match findPlayer puuid m.participantList with
  | Except.error e => Except.error e
  | Except.ok none => Except.ok []
  | Except.ok (some p) =>
    match extractRow m p with
    | Except.error e => Except.error e
    | Except.ok r => Except.ok [r]

/-- The loop of `processMatches` over the (already fetched) match records,
carrying the 0-based index `i` and the total count `n`: after each match the
progress bar receives `(i + 1) / n`.  The second component collects the
sequence of progress reports. -/
def processMatchesAux (puuid : String) (n : Nat) :
    Nat → List MatchRecord → Except Unit (List MatchFeatureRow × List ℚ)
  | _, [] => Except.ok ([], [])
  | i, m :: rest =>
    match processRecord puuid m with
    | Except.error e => Except.error e
    | Except.ok rows =>
      match processMatchesAux puuid n (i + 1) rest with
      | Except.error e => Except.error e
      | Except.ok (laterRows, laterProgress) =>
        Except.ok (rows ++ laterRows,
          (((i + 1 : Nat) : ℚ) / (n : ℚ)) :: laterProgress)

/-- Model of `data_processing.processMatches`, with the per-id fetch already
performed: the input is the list of match records in match-id order.  The
result is the list of feature rows together with the sequence of progress
fractions reported to the progress bar, or an error when an uncaught
`KeyError` escapes the loop. -/
def processMatches (puuid : String) (ms : List MatchRecord) :
    Except Unit (List MatchFeatureRow × List ℚ) :=
  processMatchesAux puuid ms.length 0 ms

/-- Outcome of the single `requests.get` attempt inside `getMatchDetails`:
either the transport layer raised a `RequestException` before any response
existed, or a response with an HTTP status code and a parsed body came
back. -/
inductive RequestOutcome where
  | transportError
  | response (status : Nat) (body : MatchRecord)
  deriving DecidableEq

/-- Model of `api_utils.getMatchDetails`: one attempt; `time.sleep(1)` runs after
`requests.get` returns and before `raise_for_status`; any
`RequestException` (transport failure, or the `raise_for_status` raise on a
status ≥ 400) is caught and the empty dict is returned.  The second
component records how many seconds were slept during the call. -/
def getMatchDetails (outcome : RequestOutcome) : MatchRecord × Nat :=
  match outcome with
  | RequestOutcome.transportError => (emptyRecord, 0)
  | RequestOutcome.response status body =>
    if 400 ≤ status then (emptyRecord, 1) else (body, 1)

/-- Whether a request outcome makes `getMatchDetails` take its error path. -/
def RequestOutcome.isFailure : RequestOutcome → Bool
  | RequestOutcome.transportError => true
  | RequestOutcome.response status _ => 400 ≤ status

/-! ## Model layer (`model.py`) -/

/-- Model of `ROLE_MAPPING.get(role, role)`: the position-code dictionary of
`model.py` with the key itself as fallback. -/
def roleMapping (role : String) : String :=
  if role = "UTILITY" then "Suporte"
  else if role = "BOTTOM" then "ADC"
  else if role = "TOP" then "TOP"
  else if role = "JUNGLE" then "Jungle"
  else if role = "MIDDLE" then "MID"
  else role

/-- Insert a value into a list kept in descending order of `cnt`. -/
def insertByCount (cnt : String → Nat) (v : String) : List String → List String
  | [] => [v]
  | w :: ws => if cnt w < cnt v then v :: w :: ws else w :: insertByCount cnt v ws

/-- Insertion sort by descending `cnt`. -/
def sortByCountDesc (cnt : String → Nat) : List String → List String
  | [] => []
  | v :: vs => insertByCount cnt v (sortByCountDesc cnt vs)

/-- Model of `series.value_counts().index`: the distinct values of the series ordered
by descending occurrence count (ties in an unspecified order, here the
insertion-sort order over `List.dedup`). -/
def valueCountsIndex (l : List String) : List String :=
  sortByCountDesc (fun v => l.count v) l.dedup

/-- Model of `df['champion'].value_counts().head(3).index` in `predictByMostPlayed`. -/
def topChampions (df : List MatchFeatureRow) : List String :=
  (valueCountsIndex (df.map (fun r => r.champion))).take 3

/-- Model of `df['role'].value_counts().head(2).index` in `predictByMostPlayed`. -/
def topRoles (df : List MatchFeatureRow) : List String :=
  (valueCountsIndex (df.map (fun r => r.role))).take 2

/-- Model of `df['kda'].mean()`. -/
def kdaAverage (df : List MatchFeatureRow) : ℚ :=
  (df.map (fun r => r.kda)).sum / (df.length : ℚ)

/-- Model of `df['duration'].mean()`. -/
def durationAverage (df : List MatchFeatureRow) : ℚ :=
  (df.map (fun r => r.duration)).sum / (df.length : ℚ)

/-- A one-row pandas DataFrame: its column list and the value held in each
column (columns outside the list are irrelevant; reads default to `0`). -/
structure Entry where
  cols : List String
  val : String → ℚ

/-- Model of `entry[c] = v` on a one-row DataFrame: updates the column in place and,
when the column does not exist yet, appends it to the column list. -/
def Entry.setItem (e : Entry) (c : String) (v : ℚ) : Entry :=
  { cols := if c ∈ e.cols then e.cols else e.cols ++ [c]
    val := fun c2 => if c2 = c then v else e.val c2 }

/-- The synthetic scenario row of `predictByMostPlayed` (lines 115–128):
start from a zero row over the training columns, set `kda` and `duration`
to the dataset means, then activate the champion and role indicators only
when the corresponding column exists in the schema. -/
def buildEntry (xcols : List String) (kdaAvg timeAvg : ℚ)
    (champ role : String) : Entry :=
  let e : Entry := { cols := xcols, val := fun _ => 0 }
  let e := e.setItem "kda" kdaAvg
  let e := e.setItem "duration" timeAvg
  let e := if "champion_" ++ champ ∈ e.cols
    then e.setItem ("champion_" ++ champ) 1 else e
  if "role_" ++ role ∈ e.cols then e.setItem ("role_" ++ role) 1 else e

/-- One element of the list returned by `predictByMostPlayed`:
`(champ, role_name, prob)`. -/
structure ScenarioPrediction where
  champion : String
  roleName : String
  winProbability : ℚ
  deriving DecidableEq

/-- Model of `model.predictByMostPlayed`: the fitted classifier is abstracted by
`predictProba`, the probability it assigns to the positive (win) class of a
row; `xcols` is `x.columns` of the training features.  Outer loop over the
top champions, inner loop over the top roles; each pair is scored on its
synthetic row and the probability scaled to a percentage. -/
def predictByMostPlayed (predictProba : Entry → ℚ) (xcols : List String)
    (df : List MatchFeatureRow) : List ScenarioPrediction :=
  (topChampions df).flatMap fun champ =>
    (topRoles df).map fun role =>
      { champion := champ
        roleName := roleMapping role
        winProbability :=
          predictProba (buildEntry xcols (kdaAverage df) (durationAverage df)
            champ role) * 100 }

/-- The non-categorical columns of the feature DataFrame, in original
order with `champion` and `role` removed (what `pd.get_dummies` keeps). -/
def nonCategoricalColumns : List String :=
  ["win", "kills", "deaths", "assists", "kda", "duration",
   "gold", "damage", "farm", "vision", "first_blood"]

/-- Insert into an alphabetically ascending list of strings. -/
def insertSorted (v : String) : List String → List String
  | [] => [v]
  | w :: ws => if (compare v w).isLE then v :: w :: ws else w :: insertSorted v ws

/-- Insertion sort, ascending, for category names (pandas `get_dummies`
emits indicator columns in sorted category order). -/
def sortStrings : List String → List String
  | [] => []
  | v :: vs => insertSorted v (sortStrings vs)

/-- The column list of `pd.get_dummies(df, columns=['champion', 'role'])`:
the original non-categorical columns followed by one `champion_<v>` column
per distinct observed champion and one `role_<v>` column per distinct
observed role. -/
def encodedColumns (df : List MatchFeatureRow) : List String :=
  nonCategoricalColumns
    ++ (sortStrings (df.map (fun r => r.champion)).dedup).map
        (fun v => "champion_" ++ v)
    ++ (sortStrings (df.map (fun r => r.role)).dedup).map
        (fun v => "role_" ++ v)

/-- The value a row of the encoded DataFrame holds in a given column. -/
def encodedRow (r : MatchFeatureRow) (c : String) : ℚ :=
  if c = "win" then (if r.win then 1 else 0)
  else if c = "kills" then (r.kills : ℚ)
  else if c = "deaths" then (r.deaths : ℚ)
  else if c = "assists" then (r.assists : ℚ)
  else if c = "kda" then r.kda
  else if c = "duration" then r.duration
  else if c = "gold" then (r.gold : ℚ)
  else if c = "damage" then (r.damage : ℚ)
  else if c = "farm" then (r.farm : ℚ)
  else if c = "vision" then (r.vision : ℚ)
  else if c = "first_blood" then (r.first_blood : ℚ)
  else if c = "champion_" ++ r.champion then 1
  else if c = "role_" ++ r.role then 1
  else 0

/-- Model of `n_test` chosen by sklearn for `test_size=0.2`: `ceil(0.2 * n)`. -/
def testCount (n : Nat) : Nat := (n + 4) / 5

/-- Model of `sklearn.model_selection.train_test_split(x, y, test_size=0.2,
random_state=42)`: the seeded generator yields a permutation of the row
indices (`permOf n`, a function of the fixed seed and `n` alone); the first
`n_test` shuffled indices form the test set and the rest the training set.
Returns `(x_train, x_test, y_train, y_test)`. -/
def trainTestSplit {α β : Type} (dfltA : α) (dfltB : β)
    (permOf : Nat → List Nat) (x : List α) (y : List β) :
    List α × List α × List β × List β :=
  let n := x.length
  let nt := testCount n
  let idx := permOf n
  let testIdx := idx.take nt
  let trainIdx := idx.drop nt
  (trainIdx.map (fun i => x.getD i dfltA),
   testIdx.map (fun i => x.getD i dfltA),
   trainIdx.map (fun i => y.getD i dfltB),
   testIdx.map (fun i => y.getD i dfltB))

/-- The train/test partition built inside `model.trainModel`: the features
are the encoded rows (the `win` column is dropped into the label vector
`y`), split 80/20 under the seed-determined permutation. -/
def trainModelSplit (permOf : Nat → List Nat) (df : List MatchFeatureRow) :
    List (String → ℚ) × List (String → ℚ) × List Bool × List Bool :=
  trainTestSplit (fun _ => 0) false permOf
    (df.map (fun r => encodedRow r)) (df.map (fun r => r.win))

/-! ## Well-formedness of raw records and the total extraction function -/

/-- A participant record that carries every key the extractor reads by
direct indexing (the shape every real API participant has). -/
def Participant.wf (p : Participant) : Prop :=
  p.puuid.isSome ∧ p.championName.isSome ∧ p.win.isSome ∧ p.kills.isSome ∧
  p.deaths.isSome ∧ p.assists.isSome ∧ p.teamPosition.isSome

/-- A match record whose participants are all well-formed and whose `info`
object, when present, carries `gameDuration`. -/
def MatchRecord.wf (m : MatchRecord) : Prop :=
  (∀ p ∈ m.participantList, p.wf) ∧
  ∀ i ∈ m.info.toList, i.gameDuration.isSome

instance : DecidablePred Participant.wf := fun p => by
  unfold Participant.wf; infer_instance

instance : DecidablePred MatchRecord.wf := fun m => by
  unfold MatchRecord.wf; infer_instance

/-- Total counterpart of `extractRow`, defined on defaulted reads; it agrees
with `extractRow` whenever the directly-indexed keys are present. -/
def extractRowD (m : MatchRecord) (p : Participant) : MatchFeatureRow :=
  { champion := p.championName.getD ""
    win := p.win.getD false
    kills := p.kills.getD 0
    deaths := p.deaths.getD 0
    assists := p.assists.getD 0
    kda := ((p.kills.getD 0 : ℚ) + (p.assists.getD 0 : ℚ)) /
      (pyOrOne (p.deaths.getD 0) : ℚ)
    role := p.teamPosition.getD ""
    duration := (((m.info.bind MatchInfo.gameDuration).getD 0 : Nat) : ℚ) / 60
    gold := p.goldEarned.getD 0
    damage := p.totalDamageDealtToChampions.getD 0
    farm := p.totalMinionsKilled.getD 0
    vision := p.visionScore.getD 0
    first_blood := if p.firstBloodKill.getD false then 1 else 0 }

/-- The first participant of a match whose `puuid` equals the target. -/
def firstMatching (puuid : String) (m : MatchRecord) : Option Participant :=
  m.participantList.find? (fun p => p.puuid == some puuid)

/-- The rows a single match contributes to the dataset: one row built from
the first matching participant, or none. -/
def recordRows (puuid : String) (m : MatchRecord) : List MatchFeatureRow :=
  (firstMatching puuid m).toList.map (extractRowD m)

lemma extractRow_ok (m : MatchRecord) (p : Participant) (i : MatchInfo)
    (hp : p.wf) (hi : m.info = some i) (hd : i.gameDuration.isSome) :
    extractRow m p = Except.ok (extractRowD m p) := by
  obtain ⟨h1, h2, h3, h4, h5, h6, h7⟩ := hp
  obtain ⟨c, hc⟩ := Option.isSome_iff_exists.mp h2
  obtain ⟨w, hw⟩ := Option.isSome_iff_exists.mp h3
  obtain ⟨k, hk⟩ := Option.isSome_iff_exists.mp h4
  obtain ⟨d, hdth⟩ := Option.isSome_iff_exists.mp h5
  obtain ⟨a, ha⟩ := Option.isSome_iff_exists.mp h6
  obtain ⟨t, ht⟩ := Option.isSome_iff_exists.mp h7
  obtain ⟨g, hg⟩ := Option.isSome_iff_exists.mp hd
  simp [extractRow, extractRowD, hc, hw, hk, hdth, ha, ht, hi, hg]

lemma findPlayer_ok (puuid : String) (l : List Participant)
    (h : ∀ p ∈ l, p.puuid.isSome) :
    findPlayer puuid l = Except.ok (l.find? (fun p => p.puuid == some puuid)) := by
  induction l with
  | nil => simp [findPlayer]
  | cons p rest ih =>
    obtain ⟨pid, hpid⟩ := Option.isSome_iff_exists.mp (h p (by simp))
    by_cases hEq : pid = puuid
    · subst hEq
      simp [findPlayer, hpid, List.find?]
    · have hb : (pid == puuid) = false := beq_eq_false_iff_ne.mpr hEq
      simp [findPlayer, hpid, hEq, List.find?, hb,
        ih (fun q hq => h q (by simp [hq]))]

lemma processRecord_ok (puuid : String) (m : MatchRecord) (h : m.wf) :
    processRecord puuid m = Except.ok (recordRows puuid m) := by
  have hfind := findPlayer_ok puuid m.participantList
    (fun p hp => (h.1 p hp).1)
  cases hres : m.participantList.find? (fun p => p.puuid == some puuid) with
  | none =>
    simp [processRecord, hfind, hres, recordRows, firstMatching]
  | some p =>
    have hmem : p ∈ m.participantList := List.mem_of_find?_eq_some hres
    have hinfo : ∃ i, m.info = some i := by
      cases hm : m.info with
      | none =>
        rw [MatchRecord.participantList, hm] at hmem
        simp at hmem
      | some i => exact ⟨i, rfl⟩
    obtain ⟨i, hi⟩ := hinfo
    have hext := extractRow_ok m p i (h.1 p hmem) hi (h.2 i (by simp [hi]))
    simp [processRecord, hfind, hres, hext, recordRows, firstMatching]

lemma progressList_succ (n i k : Nat) :
    (List.range (k + 1)).map (fun j => ((i + j + 1 : Nat) : ℚ) / (n : ℚ)) =
      (((i + 1 : Nat) : ℚ) / (n : ℚ)) ::
      (List.range k).map (fun j => (((i + 1) + j + 1 : Nat) : ℚ) / (n : ℚ)) := by
  rw [List.range_succ_eq_map, List.map_cons, List.map_map]
  refine List.cons_eq_cons.mpr ⟨by norm_num, ?_⟩
  apply List.map_congr_left
  intro j _
  simp only [Function.comp_apply]
  congr 1
  push_cast
  ring

lemma processMatchesAux_ok (puuid : String) (n : Nat) (ms : List MatchRecord) :
    (∀ m ∈ ms, m.wf) → ∀ i : Nat,
    processMatchesAux puuid n i ms =
      Except.ok (ms.flatMap (recordRows puuid),
        (List.range ms.length).map
          (fun j => ((i + j + 1 : Nat) : ℚ) / (n : ℚ))) := by
  induction ms with
  | nil => intro _ i; simp [processMatchesAux]
  | cons m rest ih =>
    intro h i
    have h1 := processRecord_ok puuid m (h m (by simp))
    have h2 := ih (fun m2 hm2 => h m2 (List.mem_cons_of_mem m hm2)) (i + 1)
    simp only [processMatchesAux, h1, h2, List.flatMap_cons, List.length_cons]
    rw [progressList_succ]

/-- Shape of the progress-report sequence on any successful run: the loop
reports `(i + 1) / n` after the match at index `i`, whatever the rows. -/
lemma processMatchesAux_progress (puuid : String) (n : Nat)
    (ms : List MatchRecord) : ∀ (i : Nat) (rows : List MatchFeatureRow)
    (prog : List ℚ),
    processMatchesAux puuid n i ms = Except.ok (rows, prog) →
    prog = (List.range ms.length).map
      (fun j => ((i + j + 1 : Nat) : ℚ) / (n : ℚ)) := by
  induction ms with
  | nil =>
    intro i rows prog h
    simp [processMatchesAux] at h
    simp [h.2.symm]
  | cons m rest ih =>
    intro i rows prog h
    simp only [processMatchesAux] at h
    cases h1 : processRecord puuid m with
    | error e => rw [h1] at h; exact absurd h (by simp)
    | ok rows1 =>
      rw [h1] at h
      cases h2 : processMatchesAux puuid n (i + 1) rest with
      | error e => rw [h2] at h; exact absurd h (by simp)
      | ok out =>
        obtain ⟨laterRows, laterProgress⟩ := out
        rw [h2] at h
        simp only [Except.ok.injEq, Prod.mk.injEq] at h
        have htail := ih (i + 1) laterRows laterProgress h2
        rw [← h.2, htail, List.length_cons, progressList_succ]

lemma recordRows_length (puuid : String) (m : MatchRecord) :
    (recordRows puuid m).length =
      if ∃ p ∈ m.participantList, p.puuid = some puuid then 1 else 0 := by
  unfold recordRows firstMatching
  cases hf : m.participantList.find? (fun p => p.puuid == some puuid) with
  | none =>
    have hnone : ∀ p ∈ m.participantList, ¬ p.puuid = some puuid := by
      intro p hp
      have := List.find?_eq_none.mp hf p hp
      simpa using this
    have : ¬ ∃ p ∈ m.participantList, p.puuid = some puuid := by
      rintro ⟨p, hp, hpe⟩
      exact hnone p hp hpe
    simp [this]
  | some p =>
    have hpmem := List.mem_of_find?_eq_some hf
    have hpeq : p.puuid = some puuid := by
      have := List.find?_some hf
      simpa using this
    rw [if_pos ⟨p, hpmem, hpeq⟩]
    simp

/-- C1: over well-formed match records (every participant dict carries the
directly-indexed keys), `processMatches` completes without aborting and its
dataset is the concatenation, over the matches in order, of the per-match
contributions `recordRows`; a match contributes exactly one row when some
participant's `puuid` equals the target and zero rows otherwise (in
particular the empty record of a failed fetch contributes zero rows), and
the single row is built from the first matching participant, the scan
stopping there. -/
theorem spec_c1 (puuid : String) (ms : List MatchRecord)
    (h : ∀ m ∈ ms, m.wf) :
    processMatches puuid ms =
      Except.ok (ms.flatMap (recordRows puuid),
        (List.range ms.length).map
          (fun j => ((j + 1 : Nat) : ℚ) / ((ms.length : Nat) : ℚ))) ∧
    (∀ m ∈ ms, (recordRows puuid m).length =
      if ∃ p ∈ m.participantList, p.puuid = some puuid then 1 else 0) ∧
    (∀ m ∈ ms, ∀ p, firstMatching puuid m = some p →
      recordRows puuid m = [extractRowD m p]) ∧
    recordRows puuid emptyRecord = [] := by
  refine ⟨?_, fun m _ => recordRows_length puuid m, ?_, rfl⟩
  · rw [processMatches, processMatchesAux_ok puuid ms.length ms h 0]
    simp
  · intro m _ p hp
    simp [recordRows, hp]

/-- A fully populated participant for the target player. -/
def pTarget : Participant :=
  { puuid := some "target", championName := some "Yasuo", win := some true
    kills := some 5, deaths := some 1, assists := some 5
    teamPosition := some "MIDDLE", goldEarned := some 12000
    totalDamageDealtToChampions := some 20000, totalMinionsKilled := some 180
    visionScore := some 25, firstBloodKill := some true }

/-- A fully populated participant for another player. -/
def pOther : Participant :=
  { puuid := some "other", championName := some "Ahri", win := some false
    kills := some 2, deaths := some 3, assists := some 4
    teamPosition := some "TOP", goldEarned := some 9000
    totalDamageDealtToChampions := some 10000, totalMinionsKilled := some 150
    visionScore := some 20, firstBloodKill := some false }

/-- A match containing both players, the target second. -/
def mBoth : MatchRecord := ⟨some ⟨[pOther, pTarget], some 1800⟩⟩

/-- A match that does not contain the target player. -/
def mNoTarget : MatchRecord := ⟨some ⟨[pOther], some 1500⟩⟩

theorem spec_c1_witness :
    processMatches "target" [mBoth, mNoTarget, emptyRecord] =
      Except.ok (([mBoth, mNoTarget, emptyRecord]).flatMap (recordRows "target"),
        (List.range ([mBoth, mNoTarget, emptyRecord]).length).map
          (fun j => ((j + 1 : Nat) : ℚ) /
            ((([mBoth, mNoTarget, emptyRecord]).length : Nat) : ℚ))) ∧
    (∀ m ∈ [mBoth, mNoTarget, emptyRecord], (recordRows "target" m).length =
      if ∃ p ∈ m.participantList, p.puuid = some "target" then 1 else 0) ∧
    (∀ m ∈ [mBoth, mNoTarget, emptyRecord], ∀ p,
      firstMatching "target" m = some p →
      recordRows "target" m = [extractRowD m p]) ∧
    recordRows "target" emptyRecord = [] :=
  spec_c1 "target" [mBoth, mNoTarget, emptyRecord] (by decide)

/-- C6: on any completed run over a non-empty list of `n` matches, the
progress sink receives exactly the fractions `(i + 1) / n` in match order —
a strictly increasing sequence from `1 / n` ending at exactly `1` — and the
reports do not depend on how many rows were produced. -/
theorem spec_c6 (puuid : String) (ms : List MatchRecord)
    (rows : List MatchFeatureRow) (prog : List ℚ) (hne : ms ≠ [])
    (h : processMatches puuid ms = Except.ok (rows, prog)) :
    prog = (List.range ms.length).map
      (fun i => ((i + 1 : Nat) : ℚ) / ((ms.length : Nat) : ℚ)) ∧
    prog.Pairwise (· < ·) ∧
    prog.getLast? = some 1 := by
  have hn : 0 < ms.length := List.length_pos.mpr hne
  have hnq : (0 : ℚ) < ((ms.length : Nat) : ℚ) := by exact_mod_cast hn
  have hshape := processMatchesAux_progress puuid ms.length ms 0 rows prog h
  have hsimp : prog = (List.range ms.length).map
      (fun i => ((i + 1 : Nat) : ℚ) / ((ms.length : Nat) : ℚ)) := by
    rw [hshape]
    apply List.map_congr_left
    intro j _
    norm_num
  refine ⟨hsimp, ?_, ?_⟩
  · rw [hsimp, List.pairwise_map]
    refine (List.pairwise_lt_range ms.length).imp ?_
    intro a b hab
    rw [div_lt_div_iff₀ hnq hnq]
    have hcast : ((a : ℚ) + 1) < (b : ℚ) + 1 := by
      have : (a : ℚ) < (b : ℚ) := by exact_mod_cast hab
      linarith
    push_cast
    nlinarith
  · obtain ⟨r, rest, rfl⟩ : ∃ r rest, ms = r :: rest := by
      cases ms with
      | nil => exact absurd rfl hne
      | cons r rest => exact ⟨r, rest, rfl⟩
    rw [hsimp]
    simp only [List.length_cons, List.range_succ, List.map_append,
      List.map_cons, List.map_nil]
    rw [List.getLast?_concat]
    congr 1
    rw [div_self]
    exact_mod_cast Nat.succ_ne_zero rest.length

theorem spec_c6_witness :
    [(1 : ℚ)/2, 1] = (List.range ([emptyRecord, emptyRecord]).length).map
      (fun i => ((i + 1 : Nat) : ℚ) /
        ((([emptyRecord, emptyRecord]).length : Nat) : ℚ)) ∧
    ([(1 : ℚ)/2, 1]).Pairwise (· < ·) ∧
    ([(1 : ℚ)/2, 1]).getLast? = some 1 :=
  spec_c6 "t" [emptyRecord, emptyRecord] [] [(1 : ℚ)/2, 1]
    (by decide)
    (by norm_num [processMatches, processMatchesAux, processRecord,
      findPlayer, MatchRecord.participantList, emptyRecord])

lemma pyOrOne_eq_max (d : Nat) : pyOrOne d = max d 1 := by
  unfold pyOrOne
  rcases d with _ | d
  · simp
  · simp [Nat.max_eq_left (Nat.succ_le_succ (Nat.zero_le d))]

/-- C2: every extracted feature row satisfies
`kda = (kills + assists) / max(deaths, 1)` — the code's `deaths or 1`
coincides with `max(deaths, 1)` on non-negative counts — and in particular
`deaths = 0` yields `kda = kills + assists` with no division by zero. -/
theorem spec_c2 (m : MatchRecord) (p : Participant) (r : MatchFeatureRow)
    (h : extractRow m p = Except.ok r) :
    r.kda = ((r.kills : ℚ) + (r.assists : ℚ)) / ((max r.deaths 1 : Nat) : ℚ) ∧
    (r.deaths = 0 → r.kda = (r.kills : ℚ) + (r.assists : ℚ)) := by
  unfold extractRow at h
  split at h
  · split at h
    · exact absurd h (by simp)
    · simp only [Except.ok.injEq] at h
      subst h
      refine ⟨by simp [pyOrOne_eq_max], ?_⟩
      intro hd
      simp_all [pyOrOne]
  · exact absurd h (by simp)

/-- The target participant with zero deaths, to exercise the divide guard. -/
def pZeroDeaths : Participant :=
  { pTarget with kills := some 2, deaths := some 0, assists := some 2 }

/-- The feature row extracted for `pZeroDeaths` in `mBoth`. -/
def wRowZeroDeaths : MatchFeatureRow :=
  { champion := "Yasuo", win := true, kills := 2, deaths := 0, assists := 2
    kda := 4, role := "MIDDLE", duration := 30, gold := 12000
    damage := 20000, farm := 180, vision := 25, first_blood := 1 }

theorem spec_c2_witness :
    wRowZeroDeaths.kda =
      ((wRowZeroDeaths.kills : ℚ) + (wRowZeroDeaths.assists : ℚ)) /
        ((max wRowZeroDeaths.deaths 1 : Nat) : ℚ) ∧
    (wRowZeroDeaths.deaths = 0 →
      wRowZeroDeaths.kda =
        (wRowZeroDeaths.kills : ℚ) + (wRowZeroDeaths.assists : ℚ)) :=
  spec_c2 mBoth pZeroDeaths wRowZeroDeaths
    (by norm_num [extractRow, mBoth, pZeroDeaths, pTarget, wRowZeroDeaths,
      pyOrOne])

instance {ε α : Type} [DecidableEq ε] [DecidableEq α] :
    DecidableEq (Except ε α) := fun a b =>
  match a, b with
  | Except.ok x, Except.ok y => decidable_of_iff (x = y) (by simp)
  | Except.error x, Except.error y => decidable_of_iff (x = y) (by simp)
  | Except.ok _, Except.error _ => Decidable.isFalse (by simp)
  | Except.error _, Except.ok _ => Decidable.isFalse (by simp)

/-- A participant matching the target whose dict lacks the `kills` key. -/
def pMissingKills : Participant := { pTarget with kills := none }

/-- A match whose only participant is the target with `kills` absent. -/
def mMissingKills : MatchRecord := ⟨some ⟨[pMissingKills], some 1800⟩⟩

/-- C3 counterexample: `kills` is read by direct indexing, so a matched
participant record lacking it raises a `KeyError` that escapes
`processMatches` — extraction does not recover from every missing field. -/
theorem spec_c3_counterexample :
    processMatches "target" [mMissingKills] = Except.error () := by decide

/-- C3 as amended: the five stat fields read via `.get` (`goldEarned`,
`totalDamageDealtToChampions`, `totalMinionsKilled`, `visionScore`,
`firstBloodKill`) default to `0` when absent and their absence never raises;
extraction is total on records whose directly-indexed keys are present. -/
theorem spec_c3_amended (m : MatchRecord) (p : Participant) (i : MatchInfo)
    (hp : p.wf) (hi : m.info = some i) (hd : i.gameDuration.isSome) :
    ∃ r, extractRow m p = Except.ok r ∧
      r.gold = p.goldEarned.getD 0 ∧
      r.damage = p.totalDamageDealtToChampions.getD 0 ∧
      r.farm = p.totalMinionsKilled.getD 0 ∧
      r.vision = p.visionScore.getD 0 ∧
      r.first_blood = (if p.firstBloodKill.getD false then 1 else 0) ∧
      (p.goldEarned = none → r.gold = 0) ∧
      (p.totalDamageDealtToChampions = none → r.damage = 0) ∧
      (p.totalMinionsKilled = none → r.farm = 0) ∧
      (p.visionScore = none → r.vision = 0) ∧
      (p.firstBloodKill = none → r.first_blood = 0) := by
  refine ⟨extractRowD m p, extractRow_ok m p i hp hi hd,
    rfl, rfl, rfl, rfl, rfl, ?_, ?_, ?_, ?_, ?_⟩ <;>
    intro hnone <;> simp [extractRowD, hnone]

/-- The target participant with every optional stat key absent. -/
def pMissingOptional : Participant :=
  { pTarget with goldEarned := none, totalDamageDealtToChampions := none
                 totalMinionsKilled := none, visionScore := none
                 firstBloodKill := none }

/-- A match whose only participant is the target with all optional stat
keys absent. -/
def mMissingOptional : MatchRecord := ⟨some ⟨[pMissingOptional], some 1800⟩⟩

theorem spec_c3_amended_witness :
    ∃ r, extractRow mMissingOptional pMissingOptional = Except.ok r ∧
      r.gold = pMissingOptional.goldEarned.getD 0 ∧
      r.damage = pMissingOptional.totalDamageDealtToChampions.getD 0 ∧
      r.farm = pMissingOptional.totalMinionsKilled.getD 0 ∧
      r.vision = pMissingOptional.visionScore.getD 0 ∧
      r.first_blood =
        (if pMissingOptional.firstBloodKill.getD false then 1 else 0) ∧
      (pMissingOptional.goldEarned = none → r.gold = 0) ∧
      (pMissingOptional.totalDamageDealtToChampions = none → r.damage = 0) ∧
      (pMissingOptional.totalMinionsKilled = none → r.farm = 0) ∧
      (pMissingOptional.visionScore = none → r.vision = 0) ∧
      (pMissingOptional.firstBloodKill = none → r.first_blood = 0) :=
  spec_c3_amended mMissingOptional pMissingOptional
    ⟨[pMissingOptional], some 1800⟩ (by decide) rfl (by decide)

/-- C4 counterexample: `time.sleep(1)` sits after `requests.get` but the
`except` handler catches the exception `requests.get` itself raises, so a
transport failure reaches the handler without ever sleeping — the delay is
not enforced regardless of success or failure. -/
theorem spec_c4_counterexample :
    (getMatchDetails RequestOutcome.transportError).2 = 0 ∧
    ¬ (getMatchDetails RequestOutcome.transportError).2 = 1 := by decide

/-- C4 as amended: the 1-second post-request delay is enforced after every
call in which the HTTP request returns a response — whether the status is a
success or an error caught by `raise_for_status` — but no delay occurs when
the transport request itself raises before producing a response. -/
theorem spec_c4_amended (status : Nat) (body : MatchRecord) :
    (getMatchDetails (RequestOutcome.response status body)).2 = 1 ∧
    (getMatchDetails RequestOutcome.transportError).2 = 0 := by
  refine ⟨?_, rfl⟩
  simp only [getMatchDetails]
  split <;> rfl

/-- C5: on any transport or HTTP error, `getMatchDetails` returns the empty
dict — and, its embedding being a total function into `MatchRecord`, no
exception propagates; calls share no state, so a subsequent call whose
response is valid returns its body normally. -/
theorem spec_c5 (o : RequestOutcome) (status : Nat) (body : MatchRecord)
    (hfail : o.isFailure = true) (hok : status < 400) :
    (getMatchDetails o).1 = emptyRecord ∧
    ([o, RequestOutcome.response status body].map
      (fun oc => (getMatchDetails oc).1)) = [emptyRecord, body] := by
  have h2 : ¬ 400 ≤ status := by omega
  have h1 : (getMatchDetails o).1 = emptyRecord := by
    cases o with
    | transportError => rfl
    | response s b =>
      have hs : 400 ≤ s := of_decide_eq_true hfail
      simp [getMatchDetails, hs]
  refine ⟨h1, ?_⟩
  simp only [List.map_cons, List.map_nil, h1]
  simp [getMatchDetails, h2]

theorem spec_c5_witness :
    (getMatchDetails RequestOutcome.transportError).1 = emptyRecord ∧
    ([RequestOutcome.transportError, RequestOutcome.response 200 mBoth].map
      (fun oc => (getMatchDetails oc).1)) = [emptyRecord, mBoth] :=
  spec_c5 RequestOutcome.transportError 200 mBoth (by decide) (by decide)

/-! ## String facts about indicator column names -/

lemma role_col_ne_champion_col (a b : String) :
    "role_" ++ a ≠ "champion_" ++ b := by
  intro h
  have hd := congrArg String.data h
  rw [String.data_append, String.data_append] at hd
  rw [show "role_".data = ['r','o','l','e','_'] from rfl,
      show "champion_".data = ['c','h','a','m','p','i','o','n','_'] from rfl]
    at hd
  simp at hd

lemma champion_col_ne_kda (b : String) : "champion_" ++ b ≠ "kda" := by
  intro h
  have hd := congrArg String.data h
  rw [String.data_append] at hd
  rw [show "champion_".data = ['c','h','a','m','p','i','o','n','_'] from rfl,
      show "kda".data = ['k','d','a'] from rfl] at hd
  simp at hd

lemma champion_col_ne_duration (b : String) :
    "champion_" ++ b ≠ "duration" := by
  intro h
  have hd := congrArg String.data h
  rw [String.data_append] at hd
  rw [show "champion_".data = ['c','h','a','m','p','i','o','n','_'] from rfl,
      show "duration".data = ['d','u','r','a','t','i','o','n'] from rfl] at hd
  simp at hd

lemma role_col_ne_kda (a : String) : "role_" ++ a ≠ "kda" := by
  intro h
  have hd := congrArg String.data h
  rw [String.data_append] at hd
  rw [show "role_".data = ['r','o','l','e','_'] from rfl,
      show "kda".data = ['k','d','a'] from rfl] at hd
  simp at hd

lemma role_col_ne_duration (a : String) : "role_" ++ a ≠ "duration" := by
  intro h
  have hd := congrArg String.data h
  rw [String.data_append] at hd
  rw [show "role_".data = ['r','o','l','e','_'] from rfl,
      show "duration".data = ['d','u','r','a','t','i','o','n'] from rfl] at hd
  simp at hd

lemma champion_col_injective (v w : String)
    (h : "champion_" ++ v = "champion_" ++ w) : v = w := by
  have hd := congrArg String.data h
  rw [String.data_append, String.data_append] at hd
  exact String.ext (List.append_cancel_left hd)

lemma role_col_injective (v w : String)
    (h : "role_" ++ v = "role_" ++ w) : v = w := by
  have hd := congrArg String.data h
  rw [String.data_append, String.data_append] at hd
  exact String.ext (List.append_cancel_left hd)

lemma Entry.val_setItem (e : Entry) (col : String) (v : ℚ) (c : String) :
    (e.setItem col v).val c = if c = col then v else e.val c := rfl

lemma Entry.val_ite (P : Prop) [Decidable P] (e1 e2 : Entry) (c : String) :
    (if P then e1 else e2).val c = if P then e1.val c else e2.val c := by
  split <;> rfl

/-- Value of the synthetic row in any column other than `kda`, `duration`
and the two activated indicators. -/
lemma buildEntry_val_other (xcols : List String) (kdaAvg timeAvg : ℚ)
    (champ role c : String) (h1 : c ≠ "kda") (h2 : c ≠ "duration")
    (h3 : c ≠ "champion_" ++ champ) (h4 : c ≠ "role_" ++ role) :
    (buildEntry xcols kdaAvg timeAvg champ role).val c = 0 := by
  simp only [buildEntry, Entry.val_setItem, Entry.val_ite]
  simp [h1, h2, h3, h4]

lemma Entry.cols_setItem (e : Entry) (col : String) (v : ℚ) :
    (e.setItem col v).cols =
      if col ∈ e.cols then e.cols else e.cols ++ [col] := rfl

lemma Entry.cols_ite (P : Prop) [Decidable P] (e1 e2 : Entry) :
    (if P then e1 else e2).cols = if P then e1.cols else e2.cols := by
  split <;> rfl

/-- The synthetic row never invents columns: every column of the built
entry is a training column or one of the two numeric columns the code
assigns unconditionally. -/
lemma buildEntry_cols (xcols : List String) (kdaAvg timeAvg : ℚ)
    (champ role : String) :
    ∀ c ∈ (buildEntry xcols kdaAvg timeAvg champ role).cols,
      c ∈ xcols ∨ c = "kda" ∨ c = "duration" := by
  intro c hc
  simp only [buildEntry, Entry.cols_ite, Entry.cols_setItem] at hc
  split_ifs at hc <;> simp_all [List.mem_append] <;> tauto

lemma buildEntry_val_champion_present (xcols : List String)
    (kdaAvg timeAvg : ℚ) (champ role : String)
    (h : "champion_" ++ champ ∈ xcols) :
    (buildEntry xcols kdaAvg timeAvg champ role).val
      ("champion_" ++ champ) = 1 := by
  have hrc : "champion_" ++ champ ≠ "role_" ++ role :=
    fun hh => role_col_ne_champion_col role champ hh.symm
  have hm : "champion_" ++ champ ∈
      ((({ cols := xcols, val := fun _ => 0 } : Entry).setItem
        "kda" kdaAvg).setItem "duration" timeAvg).cols := by
    simp only [Entry.cols_setItem]
    split_ifs <;> simp [h]
  simp only [buildEntry, Entry.val_ite, Entry.val_setItem]
  simp [hrc, hm]

lemma buildEntry_val_role_present (xcols : List String)
    (kdaAvg timeAvg : ℚ) (champ role : String)
    (h : "role_" ++ role ∈ xcols) :
    (buildEntry xcols kdaAvg timeAvg champ role).val
      ("role_" ++ role) = 1 := by
  have hm : "role_" ++ role ∈
      (if "champion_" ++ champ ∈
          ((({ cols := xcols, val := fun _ => 0 } : Entry).setItem
            "kda" kdaAvg).setItem "duration" timeAvg).cols
        then ((({ cols := xcols, val := fun _ => 0 } : Entry).setItem
            "kda" kdaAvg).setItem "duration" timeAvg).setItem
            ("champion_" ++ champ) 1
        else (({ cols := xcols, val := fun _ => 0 } : Entry).setItem
            "kda" kdaAvg).setItem "duration" timeAvg).cols := by
    simp only [Entry.cols_ite, Entry.cols_setItem]
    split_ifs <;> simp [h, List.mem_append]
  simp only [buildEntry, Entry.val_ite, Entry.val_setItem]
  simp [hm]

lemma buildEntry_val_champion_absent (xcols : List String)
    (kdaAvg timeAvg : ℚ) (champ role : String)
    (h : "champion_" ++ champ ∉ xcols) :
    (buildEntry xcols kdaAvg timeAvg champ role).val
      ("champion_" ++ champ) = 0 := by
  have hrc : "champion_" ++ champ ≠ "role_" ++ role :=
    fun hh => role_col_ne_champion_col role champ hh.symm
  have hm : "champion_" ++ champ ∉
      ((({ cols := xcols, val := fun _ => 0 } : Entry).setItem
        "kda" kdaAvg).setItem "duration" timeAvg).cols := by
    simp only [Entry.cols_setItem]
    split_ifs <;>
      simp [h, List.mem_append, champion_col_ne_kda,
        champion_col_ne_duration]
  simp only [buildEntry, Entry.val_ite, Entry.val_setItem]
  simp [hrc, hm, champion_col_ne_kda, champion_col_ne_duration]

lemma buildEntry_val_role_absent (xcols : List String)
    (kdaAvg timeAvg : ℚ) (champ role : String)
    (h : "role_" ++ role ∉ xcols) :
    (buildEntry xcols kdaAvg timeAvg champ role).val
      ("role_" ++ role) = 0 := by
  have hrc : "role_" ++ role ≠ "champion_" ++ champ :=
    role_col_ne_champion_col role champ
  have hm : "role_" ++ role ∉
      (if "champion_" ++ champ ∈
          ((({ cols := xcols, val := fun _ => 0 } : Entry).setItem
            "kda" kdaAvg).setItem "duration" timeAvg).cols
        then ((({ cols := xcols, val := fun _ => 0 } : Entry).setItem
            "kda" kdaAvg).setItem "duration" timeAvg).setItem
            ("champion_" ++ champ) 1
        else (({ cols := xcols, val := fun _ => 0 } : Entry).setItem
            "kda" kdaAvg).setItem "duration" timeAvg).cols := by
    simp only [Entry.cols_ite, Entry.cols_setItem]
    split_ifs <;>
      simp [h, List.mem_append, role_col_ne_kda, role_col_ne_duration, hrc]
  simp only [buildEntry, Entry.val_ite, Entry.val_setItem]
  simp [hrc, hm, role_col_ne_kda, role_col_ne_duration]

/-- C10: the synthetic scenario row activates an indicator only when its
column exists in the training schema — a top champion or role whose
indicator column is absent is simply left unset (its value stays `0`), no
column is added and no error is possible (`buildEntry` is total); at most
one champion indicator and at most one role indicator read `1`, and every
column other than `kda`, `duration` and the two matching indicators reads
`0`. -/
theorem spec_c10 (xcols : List String) (kdaAvg timeAvg : ℚ)
    (champ role : String) :
    (∀ c ∈ (buildEntry xcols kdaAvg timeAvg champ role).cols,
      c ∈ xcols ∨ c = "kda" ∨ c = "duration") ∧
    ("champion_" ++ champ ∉ xcols →
      (buildEntry xcols kdaAvg timeAvg champ role).val
        ("champion_" ++ champ) = 0) ∧
    ("role_" ++ role ∉ xcols →
      (buildEntry xcols kdaAvg timeAvg champ role).val
        ("role_" ++ role) = 0) ∧
    ("champion_" ++ champ ∈ xcols →
      (buildEntry xcols kdaAvg timeAvg champ role).val
        ("champion_" ++ champ) = 1) ∧
    ("role_" ++ role ∈ xcols →
      (buildEntry xcols kdaAvg timeAvg champ role).val
        ("role_" ++ role) = 1) ∧
    (∀ v, v ≠ champ →
      (buildEntry xcols kdaAvg timeAvg champ role).val
        ("champion_" ++ v) = 0) ∧
    (∀ v, v ≠ role →
      (buildEntry xcols kdaAvg timeAvg champ role).val
        ("role_" ++ v) = 0) ∧
    (∀ c, c ≠ "kda" → c ≠ "duration" → c ≠ "champion_" ++ champ →
      c ≠ "role_" ++ role →
      (buildEntry xcols kdaAvg timeAvg champ role).val c = 0) := by
  refine ⟨buildEntry_cols xcols kdaAvg timeAvg champ role,
    buildEntry_val_champion_absent xcols kdaAvg timeAvg champ role,
    buildEntry_val_role_absent xcols kdaAvg timeAvg champ role,
    buildEntry_val_champion_present xcols kdaAvg timeAvg champ role,
    buildEntry_val_role_present xcols kdaAvg timeAvg champ role,
    ?_, ?_,
    buildEntry_val_other xcols kdaAvg timeAvg champ role⟩
  · intro v hv
    exact buildEntry_val_other xcols kdaAvg timeAvg champ role
      ("champion_" ++ v) (champion_col_ne_kda v)
      (champion_col_ne_duration v)
      (fun hh => hv (champion_col_injective v champ hh))
      (fun hh => role_col_ne_champion_col role v hh.symm)
  · intro v hv
    exact buildEntry_val_other xcols kdaAvg timeAvg champ role
      ("role_" ++ v) (role_col_ne_kda v) (role_col_ne_duration v)
      (role_col_ne_champion_col v champ)
      (fun hh => hv (role_col_injective v role hh))

theorem spec_c10_witness :
    (∀ c ∈ (buildEntry ["kda", "duration", "champion_Yasuo"] 4 30
        "Yasuo" "MIDDLE").cols,
      c ∈ ["kda", "duration", "champion_Yasuo"] ∨ c = "kda" ∨
        c = "duration") ∧
    ("champion_" ++ "Yasuo" ∉ ["kda", "duration", "champion_Yasuo"] →
      (buildEntry ["kda", "duration", "champion_Yasuo"] 4 30
        "Yasuo" "MIDDLE").val ("champion_" ++ "Yasuo") = 0) ∧
    ("role_" ++ "MIDDLE" ∉ ["kda", "duration", "champion_Yasuo"] →
      (buildEntry ["kda", "duration", "champion_Yasuo"] 4 30
        "Yasuo" "MIDDLE").val ("role_" ++ "MIDDLE") = 0) ∧
    ("champion_" ++ "Yasuo" ∈ ["kda", "duration", "champion_Yasuo"] →
      (buildEntry ["kda", "duration", "champion_Yasuo"] 4 30
        "Yasuo" "MIDDLE").val ("champion_" ++ "Yasuo") = 1) ∧
    ("role_" ++ "MIDDLE" ∈ ["kda", "duration", "champion_Yasuo"] →
      (buildEntry ["kda", "duration", "champion_Yasuo"] 4 30
        "Yasuo" "MIDDLE").val ("role_" ++ "MIDDLE") = 1) ∧
    (∀ v, v ≠ "Yasuo" →
      (buildEntry ["kda", "duration", "champion_Yasuo"] 4 30
        "Yasuo" "MIDDLE").val ("champion_" ++ v) = 0) ∧
    (∀ v, v ≠ "MIDDLE" →
      (buildEntry ["kda", "duration", "champion_Yasuo"] 4 30
        "Yasuo" "MIDDLE").val ("role_" ++ v) = 0) ∧
    (∀ c, c ≠ "kda" → c ≠ "duration" → c ≠ "champion_" ++ "Yasuo" →
      c ≠ "role_" ++ "MIDDLE" →
      (buildEntry ["kda", "duration", "champion_Yasuo"] 4 30
        "Yasuo" "MIDDLE").val c = 0) :=
  spec_c10 ["kda", "duration", "champion_Yasuo"] 4 30 "Yasuo" "MIDDLE"

lemma length_insertByCount (cnt : String → Nat) (v : String)
    (l : List String) : (insertByCount cnt v l).length = l.length + 1 := by
  induction l with
  | nil => rfl
  | cons w ws ih =>
    unfold insertByCount
    split
    · simp
    · simp [ih]

lemma length_sortByCountDesc (cnt : String → Nat) (l : List String) :
    (sortByCountDesc cnt l).length = l.length := by
  induction l with
  | nil => rfl
  | cons v vs ih => simp [sortByCountDesc, length_insertByCount, ih]

lemma length_valueCountsIndex (l : List String) :
    (valueCountsIndex l).length = l.dedup.length :=
  length_sortByCountDesc _ _

lemma length_flatMap_const {α β : Type} (l : List α) (g : α → List β)
    (k : Nat) (h : ∀ a ∈ l, (g a).length = k) :
    (l.flatMap g).length = l.length * k := by
  induction l with
  | nil => simp
  | cons a as ih =>
    rw [List.flatMap_cons, List.length_append, h a (by simp),
      ih (fun b hb => h b (List.mem_cons_of_mem a hb)), List.length_cons,
      Nat.succ_mul, Nat.add_comm]

/-- C7: the scenario predictor emits exactly
`min 3 (#distinct champions) * min 2 (#distinct roles)` predictions (hence
never more than 6 and never fewer than the capped product), each given win
probability lies in `[0, 100]` whenever the classifier emits class
probabilities in `[0, 1]`, and the output order is the outer loop over the
top champions with the inner loop over the top roles. -/
theorem spec_c7 (predictProba : Entry → ℚ) (xcols : List String)
    (df : List MatchFeatureRow)
    (hp : ∀ e, 0 ≤ predictProba e ∧ predictProba e ≤ 1) :
    (predictByMostPlayed predictProba xcols df).length =
      min 3 (df.map (fun r => r.champion)).dedup.length *
      min 2 (df.map (fun r => r.role)).dedup.length ∧
    (∀ pr ∈ predictByMostPlayed predictProba xcols df,
      0 ≤ pr.winProbability ∧ pr.winProbability ≤ 100) ∧
    (predictByMostPlayed predictProba xcols df).map
      (fun pr => (pr.champion, pr.roleName)) =
      (topChampions df).flatMap (fun champ =>
        (topRoles df).map (fun role => (champ, roleMapping role))) := by
  refine ⟨?_, ?_, ?_⟩
  · unfold predictByMostPlayed
    rw [length_flatMap_const _ _ (topRoles df).length
      (fun a _ => List.length_map _ _)]
    unfold topChampions topRoles
    rw [List.length_take, List.length_take, length_valueCountsIndex,
      length_valueCountsIndex]
  · intro pr hpr
    unfold predictByMostPlayed at hpr
    obtain ⟨champ, _, hpr2⟩ := List.mem_flatMap.mp hpr
    obtain ⟨role, _, rfl⟩ := List.mem_map.mp hpr2
    obtain ⟨h0, h1⟩ := hp (buildEntry xcols (kdaAverage df)
      (durationAverage df) champ role)
    constructor
    · simpa using mul_nonneg h0 (by norm_num : (0 : ℚ) ≤ 100)
    · simpa using mul_le_mul_of_nonneg_right h1
        (by norm_num : (0 : ℚ) ≤ 100)
  · unfold predictByMostPlayed
    rw [List.map_flatMap]
    congr 1
    funext a
    rw [List.map_map]
    rfl

/-- A constant classifier assigning probability 1/2 to every row. -/
def halfProba : Entry → ℚ := fun _ => 1/2

theorem spec_c7_witness :
    (predictByMostPlayed halfProba ["kda", "duration"]
        [wRowZeroDeaths]).length =
      min 3 (([wRowZeroDeaths]).map (fun r => r.champion)).dedup.length *
      min 2 (([wRowZeroDeaths]).map (fun r => r.role)).dedup.length ∧
    (∀ pr ∈ predictByMostPlayed halfProba ["kda", "duration"]
        [wRowZeroDeaths],
      0 ≤ pr.winProbability ∧ pr.winProbability ≤ 100) ∧
    (predictByMostPlayed halfProba ["kda", "duration"]
        [wRowZeroDeaths]).map (fun pr => (pr.champion, pr.roleName)) =
      (topChampions [wRowZeroDeaths]).flatMap (fun champ =>
        (topRoles [wRowZeroDeaths]).map
          (fun role => (champ, roleMapping role))) :=
  spec_c7 halfProba ["kda", "duration"] [wRowZeroDeaths]
    (fun _ => ⟨by norm_num [halfProba], by norm_num [halfProba]⟩)

lemma mem_insertSorted (v w : String) (l : List String) :
    w ∈ insertSorted v l ↔ w = v ∨ w ∈ l := by
  induction l with
  | nil => simp [insertSorted]
  | cons x xs ih =>
    unfold insertSorted
    split
    · simp [List.mem_cons]
    · simp [List.mem_cons, ih]
      tauto

lemma mem_sortStrings (w : String) (l : List String) :
    w ∈ sortStrings l ↔ w ∈ l := by
  induction l with
  | nil => simp [sortStrings]
  | cons v vs ih => simp [sortStrings, mem_insertSorted, ih]

/-- C8: a name is a column of `pd.get_dummies(df, columns=['champion',
'role'])` exactly when it is one of the original non-categorical columns,
or `champion_<v>` for a champion value `v` observed in the dataset, or
`role_<v>` for an observed role value `v` — no extra and no missing
columns. -/
theorem spec_c8 (df : List MatchFeatureRow) (c : String) :
    c ∈ encodedColumns df ↔
      c ∈ nonCategoricalColumns ∨
      (∃ v ∈ df.map (fun r => r.champion), c = "champion_" ++ v) ∨
      (∃ v ∈ df.map (fun r => r.role), c = "role_" ++ v) := by
  unfold encodedColumns
  simp only [List.mem_append, List.mem_map, mem_sortStrings,
    List.mem_dedup]
  constructor
  · rintro ((h | ⟨v, hv, rfl⟩) | ⟨v, hv, rfl⟩)
    · exact Or.inl h
    · exact Or.inr (Or.inl ⟨v, hv, rfl⟩)
    · exact Or.inr (Or.inr ⟨v, hv, rfl⟩)
  · rintro (h | ⟨v, hv, rfl⟩ | ⟨v, hv, rfl⟩)
    · exact Or.inl (Or.inl h)
    · exact Or.inl (Or.inr ⟨v, hv, rfl⟩)
    · exact Or.inr ⟨v, hv, rfl⟩

/-- C9: the 80/20 split partitions the encoded rows —
`len(x_train) + len(x_test)` equals the number of encoded rows, the test
side receives `ceil(0.2 * n)` rows (0.2 within rounding:
`n ≤ 5 * len(x_test) < n + 5`) — and, the seeded shuffle being a pure
function of the row count, identical input yields an identical
partition. -/
theorem spec_c9 (permOf : Nat → List Nat) (df : List MatchFeatureRow)
    (hperm : (permOf df.length).Perm (List.range df.length)) :
    ((trainModelSplit permOf df).1).length +
      ((trainModelSplit permOf df).2.1).length = df.length ∧
    ((trainModelSplit permOf df).2.1).length = testCount df.length ∧
    df.length ≤ 5 * ((trainModelSplit permOf df).2.1).length ∧
    5 * ((trainModelSplit permOf df).2.1).length < df.length + 5 ∧
    (∀ df2, df2 = df →
      trainModelSplit permOf df2 = trainModelSplit permOf df) := by
  have hlen : (permOf df.length).length = df.length := by
    simpa using hperm.length_eq
  unfold trainModelSplit trainTestSplit
  simp only [List.length_map, List.length_drop, List.length_take, hlen,
    testCount]
  refine ⟨by omega, by omega, by omega, by omega, fun df2 h => by rw [h]⟩

/-- A concrete permutation provider: reverse order. -/
def reversePerm : Nat → List Nat := fun n => (List.range n).reverse

theorem spec_c9_witness :
    ((trainModelSplit reversePerm [wRowZeroDeaths, wRowZeroDeaths]).1).length +
      ((trainModelSplit reversePerm
        [wRowZeroDeaths, wRowZeroDeaths]).2.1).length =
      ([wRowZeroDeaths, wRowZeroDeaths] : List MatchFeatureRow).length ∧
    ((trainModelSplit reversePerm
        [wRowZeroDeaths, wRowZeroDeaths]).2.1).length =
      testCount ([wRowZeroDeaths, wRowZeroDeaths] : List MatchFeatureRow).length ∧
    ([wRowZeroDeaths, wRowZeroDeaths] : List MatchFeatureRow).length ≤
      5 * ((trainModelSplit reversePerm
        [wRowZeroDeaths, wRowZeroDeaths]).2.1).length ∧
    5 * ((trainModelSplit reversePerm
        [wRowZeroDeaths, wRowZeroDeaths]).2.1).length <
      ([wRowZeroDeaths, wRowZeroDeaths] : List MatchFeatureRow).length + 5 ∧
    (∀ df2, df2 = [wRowZeroDeaths, wRowZeroDeaths] →
      trainModelSplit reversePerm df2 =
        trainModelSplit reversePerm [wRowZeroDeaths, wRowZeroDeaths]) :=
  spec_c9 reversePerm [wRowZeroDeaths, wRowZeroDeaths] (by decide)

theorem spec_c8_witness :
    "champion_Yasuo" ∈ encodedColumns [wRowZeroDeaths] ↔
      "champion_Yasuo" ∈ nonCategoricalColumns ∨
      (∃ v ∈ ([wRowZeroDeaths]).map (fun r => r.champion),
        "champion_Yasuo" = "champion_" ++ v) ∨
      (∃ v ∈ ([wRowZeroDeaths]).map (fun r => r.role),
        "champion_Yasuo" = "role_" ++ v) :=
  spec_c8 [wRowZeroDeaths] "champion_Yasuo"
